import Mathlib

/-!
Verification of the `usb_communication` ESPHome component shim
(`src/components/usb_communication/__init__.py`) and of the USB-serial
framing driver described by the specification.

Part 1 embeds the Python module: the codegen namespace/class declarations,
the configuration schema, and the `to_code` hook, as pure Lean functions.
Part 2 models the framing engine, send queue and transport adapter that the
specification describes (that driver code is not part of the given source
tree, so it is modelled from the specification's words).
-/

namespace UsbComm

/-! ### Part 1: the Python configuration/code-generation shim -/

/-- `from esphome.const import CONF_ID`: the configuration key for IDs. -/
def CONF_ID : String := "id"

/-- `DEPENDENCIES = []`: the module declares no dependencies. -/
def DEPENDENCIES : List String := []

/-- A C++ namespace handle as produced by `esphome.codegen`. -/
structure CGNamespace where
  path : List String
deriving DecidableEq, Repr

/-- `ns.namespace(name)`: a child namespace. -/
def CGNamespace.namespace_ (n : CGNamespace) (s : String) : CGNamespace :=
  ⟨n.path ++ [s]⟩

/-- A mock C++ class handle as produced by `esphome.codegen`. -/
structure MockObjClass where
  ns : CGNamespace
  name : String
  parents : List String
deriving DecidableEq, Repr

/-- `ns.class_(name, *parents)`: declare a class inside a namespace. -/
def CGNamespace.class_ (n : CGNamespace) (s : String) (ps : List String) :
    MockObjClass :=
  ⟨n, s, ps⟩

/-- `cg.esphome_ns`: the root `esphome` namespace. -/
def esphome_ns : CGNamespace := ⟨["esphome"]⟩

/-- `cg.Component`: the host framework's component base class name. -/
def Component : String := "Component"

/-- `usb_communication_ns = cg.esphome_ns.namespace("usb_communication")`. -/
def usb_communication_ns : CGNamespace :=
  esphome_ns.namespace_ "usb_communication"

/-- `USBCommunicationComponent = usb_communication_ns.class_(
      "USBCommunicationComponent", cg.Component)`. -/
def USBCommunicationComponent : MockObjClass :=
  usb_communication_ns.class_ "USBCommunicationComponent" [Component]

/-- A validated configuration value. Only the ID entry is inspected by this
module; values are represented by natural-number handles into the code
generator's symbol table. -/
abbrev Value := Nat

/-- A configuration mapping, as the dict handed to `to_code`: an association
list from configuration keys to values (keys are unique in a Python dict;
`lookup` returns the first binding). -/
abbrev Config := List (String × Value)

/-- One key declaration of a `cv.Schema` dict. `generated` marks a
`cv.GenerateID()` key, whose value is auto-generated when absent. -/
structure KeyDecl where
  key : String
  generated : Bool
deriving DecidableEq, Repr

/-- A `cv.Schema`: the list of key declarations it accepts. -/
structure Schema where
  decls : List KeyDecl
deriving DecidableEq, Repr

/-- `schema.extend(other)`: accept the union of both declaration sets. -/
def Schema.extend (s t : Schema) : Schema := ⟨s.decls ++ t.decls⟩

/-- `cv.COMPONENT_SCHEMA` (host framework): the base component schema,
contributing its own optional key (`setup_priority`) and no generated ID. -/
def COMPONENT_SCHEMA : Schema := ⟨[⟨"setup_priority", false⟩]⟩

/-- The key declarations written in this module's own schema dict:
`{cv.GenerateID(): cv.declare_id(USBCommunicationComponent)}`. -/
def ownDecls : List KeyDecl := [⟨CONF_ID, true⟩]

/-- `CONFIG_SCHEMA = cv.Schema({cv.GenerateID(): cv.declare_id(...)})
      .extend(cv.COMPONENT_SCHEMA)`. -/
def CONFIG_SCHEMA : Schema := (Schema.mk ownDecls).extend COMPONENT_SCHEMA

/-- Auto-generated ID handle supplied by `cv.GenerateID()` when the user
configuration omits the key. -/
def autoId : Value := 0

/-- Schema validation: every key of the input must be declared; every
`cv.GenerateID()` key absent from the input is filled in with an
auto-generated ID. Returns `none` when an undeclared key is present. -/
def Schema.validate (s : Schema) (c : Config) : Option Config :=
  if c.all (fun kv => s.decls.any (fun d => d.key = kv.1)) then
    some (s.decls.foldl
      (fun acc d =>
        if d.generated ∧ (acc.lookup d.key).isNone then acc ++ [(d.key, autoId)]
        else acc)
      c)
  else
    none

/-- One code-generation action emitted by `to_code`. -/
inductive GenStmt where
  /-- `cg.new_Pvariable(id)`: instantiate the object declared under `id`. -/
  | newPvariable (id : Value)
  /-- `cg.register_component(var, config)`: register the variable `var`,
  forwarding the full configuration to the framework. -/
  | registerComponent (var : Value) (config : Config)
deriving DecidableEq, Repr

/-- `async def to_code(config)`: look up `config[CONF_ID]` (a raising dict
access, modelled as `Option`), instantiate one Pvariable from it, then
register that variable with the framework. -/
def to_code (config : Config) : Option (List GenStmt) :=
  match config.lookup CONF_ID with
  | some id => some [GenStmt.newPvariable id,
                     GenStmt.registerComponent id config]
  | none => none

/-! ### Part 2: the USB-serial framing driver described by the spec -/

/-- A byte: a natural number below 256. Streams are lists of bytes. -/
abbrev Byte := Nat

/-- Modelled from the spec: the wire format's start marker, taken from the
spec's worked example (`[0x7E, 0x04, 0x50,0x49,0x4E,0x47, CRC]`). -/
def START : Byte := 0x7E

/-- Modelled from the spec: the configured maximum frame (payload) size;
the spec leaves the constant open, so the largest value expressible in the
one-byte length field is used. -/
def maxFrameSize : Nat := 255

/-- Modelled from the spec: a Frame of the data model, identified by its
payload bytes (start marker, length and checksum are derived on encode). -/
structure Frame where
  payload : List Byte
deriving DecidableEq, Repr

/-- Modelled from the spec: a frame is valid when its payload fits the
length field and the configured maximum, and holds genuine bytes. -/
def validFrame (f : Frame) : Prop :=
  f.payload.length ≤ maxFrameSize ∧ ∀ b ∈ f.payload, b < 256

instance (f : Frame) : Decidable (validFrame f) := by
  unfold validFrame; infer_instance

/-- Modelled from the spec: the checksum is computed over `length +
payload` (the spec leaves the scheme open; a mod-256 byte sum is used). -/
def checksum (len : Nat) (payload : List Byte) : Byte :=
  (len + payload.sum) % 256

/-- Modelled from the spec: `encode` lays a frame out on the wire as
`[start marker][length][payload bytes][checksum]`. -/
def encode (f : Frame) : List Byte :=
  START :: f.payload.length :: (f.payload ++ [checksum f.payload.length f.payload])

/-- Modelled from the spec: the framing state machine's states
`AWAIT_START → READ_LENGTH → READ_PAYLOAD → READ_CHECKSUM`(dispatch is
immediate on checksum match, so it needs no resident state). -/
inductive FrameState where
  | awaitStart
  | readLength
  | readPayload (len : Nat) (acc : List Byte)
  | readChecksum (len : Nat) (payload : List Byte)
deriving DecidableEq, Repr

/-- Modelled from the spec: the Framing Engine — current decoder state, the
checksum-mismatch error counter, and the frames dispatched so far (in
order). -/
structure Engine where
  state : FrameState
  errorCount : Nat
  dispatched : List Frame
deriving DecidableEq, Repr

/-- Modelled from the spec: the engine as set up before any byte arrives. -/
def Engine.mkInit : Engine := ⟨FrameState.awaitStart, 0, []⟩

/-- Modelled from the spec: one byte through the framing state machine.
`AWAIT_START` discards bytes until the start marker; `READ_LENGTH` rejects
oversized declared lengths (resync); `READ_PAYLOAD` accumulates exactly
`len` bytes; `READ_CHECKSUM` dispatches on match and on mismatch discards
the frame, resyncs to `AWAIT_START` and increments the error counter. -/
def step (e : Engine) (b : Byte) : Engine :=
  match e.state with
  | FrameState.awaitStart =>
      if b = START then { e with state := FrameState.readLength } else e
  | FrameState.readLength =>
      if b > maxFrameSize then { e with state := FrameState.awaitStart }
      else if b = 0 then { e with state := FrameState.readChecksum 0 [] }
      else { e with state := FrameState.readPayload b [] }
  | FrameState.readPayload len acc =>
      if acc.length + 1 = len then
        { e with state := FrameState.readChecksum len (acc ++ [b]) }
      else
        { e with state := FrameState.readPayload len (acc ++ [b]) }
  | FrameState.readChecksum len payload =>
      if b = checksum len payload then
        { e with state := FrameState.awaitStart,
                 dispatched := e.dispatched ++ [Frame.mk payload] }
      else
        { e with state := FrameState.awaitStart,
                 errorCount := e.errorCount + 1 }

/-- Modelled from the spec: feed a byte stream through the engine; the
machine is re-entrant, so a run over a concatenation equals two runs. -/
def run (e : Engine) (bs : List Byte) : Engine :=
  bs.foldl step e

/-- Modelled from the spec: `decode` of the driver's framing engine — the
frames dispatched when a byte stream is fed to a freshly set-up engine. -/
def decode (bs : List Byte) : List Frame :=
  (run Engine.mkInit bs).dispatched

/-- Modelled from the spec: a frame's wire image with its checksum byte
replaced by `c` (corruption injected in the checksum). -/
def corruptChecksum (f : Frame) (c : Byte) : List Byte :=
  START :: f.payload.length :: (f.payload ++ [c])

/-- Modelled from the spec: result of `enqueue`. -/
inductive EnqueueResult where
  | ok
  | rejectedFull
deriving DecidableEq, Repr

/-- Modelled from the spec: the SendQueue — an ordered, capacity-bounded
sequence of pending frames. -/
structure SendQueue where
  capacity : Nat
  frames : List Frame
deriving DecidableEq, Repr

/-- Modelled from the spec: `enqueue(message)` appends when below capacity
and returns `REJECTED_FULL` (QueueFull), leaving the queue untouched, when
the queue is at capacity. -/
def enqueue (q : SendQueue) (f : Frame) : SendQueue × EnqueueResult :=
  if q.capacity ≤ q.frames.length then (q, EnqueueResult.rejectedFull)
  else ({ q with frames := q.frames ++ [f] }, EnqueueResult.ok)

/-- Modelled from the spec: the transport-adapter side of a partially
written frame — the wire bytes of the current frame and a cursor counting
the bytes already accepted by `write`. -/
structure Sender where
  current : List Byte
  cursor : Nat
deriving DecidableEq, Repr

/-- Modelled from the spec: one poll cycle of the drain loop when the
transport accepts `n` bytes — emit the next `n` unwritten bytes of the
current frame (fewer if fewer remain) and advance the cursor past exactly
the bytes emitted, never re-sending already-sent bytes. -/
def pollWrite (s : Sender) (n : Nat) : Sender × List Byte :=
  let out := (s.current.drop s.cursor).take n
  ({ s with cursor := s.cursor + out.length }, out)

/-- Modelled from the spec: successive poll cycles with the transport
accepting `ns.head, ns.tail.head, ...` bytes; returns the final sender
state and the concatenation of all bytes put on the wire. -/
def drain (s : Sender) (ns : List Nat) : Sender × List Byte :=
  match ns with
  | [] => (s, [])
  | n :: rest =>
      ((drain (pollWrite s n).1 rest).1,
       (pollWrite s n).2 ++ (drain (pollWrite s n).1 rest).2)

/-! ### Shared lemmas -/

theorem lookup_append_of_none {l l' : Config} {k : String}
    (h : l.lookup k = none) : (l ++ l').lookup k = l'.lookup k := by
  induction l with
  | nil => rfl
  | cons kv rest ih =>
    obtain ⟨a, b⟩ := kv
    rw [List.cons_append]
    cases hk : (k == a)
    · simp only [List.lookup_cons, hk] at h ⊢
      exact ih h
    · simp only [List.lookup_cons, hk] at h
      exact Option.noConfusion h

theorem run_cons (e : Engine) (b : Byte) (bs : List Byte) :
    run e (b :: bs) = run (step e b) bs := rfl

theorem run_append (e : Engine) (xs ys : List Byte) :
    run e (xs ++ ys) = run (run e xs) ys := by
  simp [run, List.foldl_append]

theorem run_readPayload (len : Nat) (err : Nat) (ds : List Frame) :
    ∀ (rest acc : List Byte), acc.length + rest.length = len → rest ≠ [] →
      run ⟨FrameState.readPayload len acc, err, ds⟩ rest =
        ⟨FrameState.readChecksum len (acc ++ rest), err, ds⟩ := by
  intro rest
  induction rest with
  | nil => intro acc h hne; exact absurd rfl hne
  | cons b rest ih =>
    intro acc h _
    rw [run_cons]
    cases rest with
    | nil =>
      have hfull : acc.length + 1 = len := by
        simpa using h
      simp [run, step, hfull]
    | cons b2 rest2 =>
      have hnotfull : ¬ acc.length + 1 = len := by
        simp only [List.length_cons] at h
        omega
      have hstep : step ⟨FrameState.readPayload len acc, err, ds⟩ b =
          ⟨FrameState.readPayload len (acc ++ [b]), err, ds⟩ := by
        simp [step, hnotfull]
      rw [hstep, ih (acc ++ [b]) (by simp only [List.length_append,
        List.length_cons, List.length_nil] at h ⊢; omega) (by simp)]
      simp

theorem run_encode (err : Nat) (ds : List Frame) (f : Frame)
    (hv : validFrame f) :
    run ⟨FrameState.awaitStart, err, ds⟩ (encode f) =
      ⟨FrameState.awaitStart, err, ds ++ [f]⟩ := by
  obtain ⟨p⟩ := f
  have hmax : ¬ p.length > maxFrameSize := by
    exact not_lt_of_le hv.1
  cases p with
  | nil =>
    simp [encode, run, step, START, hmax]
  | cons b bs =>
    have hstart : step ⟨FrameState.awaitStart, err, ds⟩ START =
        ⟨FrameState.readLength, err, ds⟩ := by
      simp [step]
    have hlen : step ⟨FrameState.readLength, err, ds⟩ (b :: bs).length =
        ⟨FrameState.readPayload (b :: bs).length [], err, ds⟩ := by
      simp only [step]
      rw [if_neg hmax, if_neg (by simp)]
    rw [encode, run_cons, hstart, run_cons, hlen, run_append,
      run_readPayload (b :: bs).length err ds (b :: bs) [] (by simp)
        (by simp)]
    simp [run, step]

theorem run_corrupt (err : Nat) (ds : List Frame) (f : Frame) (c : Byte)
    (hv : validFrame f) (hc : c ≠ checksum f.payload.length f.payload) :
    run ⟨FrameState.awaitStart, err, ds⟩ (corruptChecksum f c) =
      ⟨FrameState.awaitStart, err + 1, ds⟩ := by
  obtain ⟨p⟩ := f
  have hmax : ¬ p.length > maxFrameSize := by
    exact not_lt_of_le hv.1
  simp only at hc
  cases p with
  | nil =>
    simp [corruptChecksum, run, step, START, hmax]
    simpa using hc
  | cons b bs =>
    have hstart : step ⟨FrameState.awaitStart, err, ds⟩ START =
        ⟨FrameState.readLength, err, ds⟩ := by
      simp [step]
    have hlen : step ⟨FrameState.readLength, err, ds⟩ (b :: bs).length =
        ⟨FrameState.readPayload (b :: bs).length [], err, ds⟩ := by
      simp only [step]
      rw [if_neg hmax, if_neg (by simp)]
    rw [corruptChecksum, run_cons, hstart, run_cons, hlen, run_append,
      run_readPayload (b :: bs).length err ds (b :: bs) [] (by simp)
        (by simp)]
    simp [run, step]
    simpa using hc

theorem pollWrite_eq (F : List Byte) (c n : Nat) :
    pollWrite ⟨F, c⟩ n =
      (⟨F, c + min n (F.length - c)⟩, (F.drop c).take n) := by
  simp [pollWrite, List.length_take, List.length_drop]

theorem drop_advance (F : List Byte) (c n : Nat) :
    F.drop (c + min n (F.length - c)) = F.drop (c + n) := by
  rcases le_or_lt n (F.length - c) with h | h
  · rw [min_eq_left h]
  · have h1 : F.length ≤ c + min n (F.length - c) := by omega
    have h2 : F.length ≤ c + n := by omega
    rw [List.drop_eq_nil_of_le h1, List.drop_eq_nil_of_le h2]

theorem drain_out (F : List Byte) (ns : List Nat) :
    ∀ c, (drain ⟨F, c⟩ ns).2 = (F.drop c).take ns.sum := by
  induction ns with
  | nil => intro c; simp [drain]
  | cons n rest ih =>
    intro c
    rw [drain, pollWrite_eq, ih, drop_advance, List.sum_cons,
      List.take_add]
    rw [List.drop_drop]

theorem validate_some_lookup (c c' : Config)
    (h : CONFIG_SCHEMA.validate c = some c') :
    ∃ id, c'.lookup CONF_ID = some id := by
  unfold Schema.validate at h
  split at h
  · injection h with h
    subst h
    simp only [CONFIG_SCHEMA, Schema.extend, ownDecls, COMPONENT_SCHEMA,
      List.cons_append, List.nil_append, List.foldl_cons, List.foldl_nil]
    cases hl : c.lookup CONF_ID with
    | some v =>
      refine ⟨v, ?_⟩
      simp [hl]
    | none =>
      refine ⟨autoId, ?_⟩
      simp [hl, lookup_append_of_none hl]
  · exact Option.noConfusion h

/-! ### Claim theorems -/

/-- Claim C1: for every configuration accepted by CONFIG_SCHEMA, `to_code`
emits exactly one object instantiation (one new Pvariable created from the
configuration's ID entry) followed by exactly one registration call
(register_component on that same variable), and nothing else. -/
theorem to_code_single_new_and_register (c c' : Config)
    (h : CONFIG_SCHEMA.validate c = some c') :
    ∃ id, c'.lookup CONF_ID = some id ∧
      to_code c' = some [GenStmt.newPvariable id,
                         GenStmt.registerComponent id c'] := by
  obtain ⟨id, hid⟩ := validate_some_lookup c c' h
  exact ⟨id, hid, by simp [to_code, hid]⟩

/-- Witness for C1: the empty user configuration is accepted (the ID is
auto-generated) and `to_code` of the validated result emits the two
statements. -/
theorem to_code_single_new_and_register_witness :
    ∃ id, (([(CONF_ID, autoId)] : Config).lookup CONF_ID = some id ∧
      to_code [(CONF_ID, autoId)] = some [GenStmt.newPvariable id,
        GenStmt.registerComponent id [(CONF_ID, autoId)]]) :=
  to_code_single_new_and_register [] [(CONF_ID, autoId)] (by decide)

/-- Claim C2: the module declares the registered component as a class named
`USBCommunicationComponent`, placed in the namespace `usb_communication`,
inheriting from the host framework's Component base class. -/
theorem component_class_declaration :
    USBCommunicationComponent.ns = usb_communication_ns ∧
    usb_communication_ns.path = ["esphome", "usb_communication"] ∧
    USBCommunicationComponent.name = "USBCommunicationComponent" ∧
    USBCommunicationComponent.parents = [Component] :=
  ⟨rfl, rfl, rfl, rfl⟩

/-- Claim C3: the build-time configuration schema declares exactly one
option of its own — the auto-generated identifier — and adds nothing beyond
what the extended COMPONENT_SCHEMA provides. -/
theorem config_schema_own_options :
    ownDecls = [⟨CONF_ID, true⟩] ∧
    CONFIG_SCHEMA.decls = ownDecls ++ COMPONENT_SCHEMA.decls :=
  ⟨rfl, rfl⟩

/-- Claim C4: the module-level DEPENDENCIES value equals the empty list. -/
theorem dependencies_empty : DEPENDENCIES = [] := rfl

/-- Counterexample to C9 as stated: two configurations that agree on the
CONF_ID key but differ in another key produce different `to_code` outputs,
because the registration call forwards the full configuration. -/
theorem to_code_not_config_oblivious :
    (([(CONF_ID, 3)] : Config).lookup CONF_ID =
      ([(CONF_ID, 3), ("setup_priority", 5)] : Config).lookup CONF_ID) ∧
    to_code [(CONF_ID, 3)] ≠
      to_code [(CONF_ID, 3), ("setup_priority", 5)] := by
  refine ⟨rfl, ?_⟩
  simp [to_code, CONF_ID, List.lookup]

/-- Claim C9 (amended): for any two configurations that agree on the
CONF_ID key, `to_code` instantiates the same Pvariable and registers the
same variable; only the configuration forwarded to register_component may
differ. -/
theorem to_code_id_determines_vars (c1 c2 : Config) (id : Value)
    (h1 : c1.lookup CONF_ID = some id) (h2 : c2.lookup CONF_ID = some id) :
    to_code c1 = some [GenStmt.newPvariable id,
                       GenStmt.registerComponent id c1] ∧
    to_code c2 = some [GenStmt.newPvariable id,
                       GenStmt.registerComponent id c2] := by
  constructor
  · simp [to_code, h1]
  · simp [to_code, h2]

/-- Witness for C9 (amended), at two concrete configurations agreeing on
the ID. -/
theorem to_code_id_determines_vars_witness :
    to_code [(CONF_ID, 3)] = some [GenStmt.newPvariable 3,
      GenStmt.registerComponent 3 [(CONF_ID, 3)]] ∧
    to_code [(CONF_ID, 3), ("setup_priority", 5)] =
      some [GenStmt.newPvariable 3,
        GenStmt.registerComponent 3 [(CONF_ID, 3), ("setup_priority", 5)]] :=
  to_code_id_determines_vars [(CONF_ID, 3)]
    [(CONF_ID, 3), ("setup_priority", 5)] 3 (by decide) (by decide)

/-- Claim C10: `to_code` accesses config[CONF_ID] without a guard — it
succeeds (emitting the two statements) for every configuration mapping
containing the CONF_ID key, and for a mapping lacking that key the lookup
fails rather than being handled. -/
theorem to_code_id_lookup_guard (c : Config) :
    (∀ id, c.lookup CONF_ID = some id →
      to_code c = some [GenStmt.newPvariable id,
                        GenStmt.registerComponent id c]) ∧
    (c.lookup CONF_ID = none → to_code c = none) := by
  constructor
  · intro id hid
    simp [to_code, hid]
  · intro hnone
    simp [to_code, hnone]

/-- Witness for C10: a mapping holding the ID key succeeds; the empty
mapping makes the lookup fail. -/
theorem to_code_id_lookup_guard_witness :
    to_code [(CONF_ID, 7)] = some [GenStmt.newPvariable 7,
      GenStmt.registerComponent 7 [(CONF_ID, 7)]] ∧
    to_code ([] : Config) = none :=
  ⟨(to_code_id_lookup_guard [(CONF_ID, 7)]).1 7 (by decide),
   (to_code_id_lookup_guard []).2 (by decide)⟩

/-- Claim C5: for every valid frame F, decoding the encoding of F yields F
again — `decode (encode F) = [F]` for the driver's framing engine. -/
theorem decode_encode_roundtrip (f : Frame) (hv : validFrame f) :
    decode (encode f) = [f] := by
  unfold decode Engine.mkInit
  rw [run_encode 0 [] f hv]
  rfl

/-- Witness for C5, on the spec's worked example payload "PING". -/
theorem decode_encode_roundtrip_witness :
    validFrame ⟨[0x50, 0x49, 0x4E, 0x47]⟩ ∧
    decode (encode ⟨[0x50, 0x49, 0x4E, 0x47]⟩) =
      [⟨[0x50, 0x49, 0x4E, 0x47]⟩] :=
  ⟨by decide, decode_encode_roundtrip ⟨[0x50, 0x49, 0x4E, 0x47]⟩ (by decide)⟩

/-- Claim C6: for every incoming byte stream in which a frame's checksum is
corrupted, the framing engine discards the corrupted frame (its error
counter advances), returns to the start-of-frame search state, and
correctly decodes the next valid frame in the stream. -/
theorem corrupted_checksum_resync (f1 f2 : Frame) (c : Byte)
    (h1 : validFrame f1) (h2 : validFrame f2)
    (hc : c ≠ checksum f1.payload.length f1.payload) :
    decode (corruptChecksum f1 c ++ encode f2) = [f2] ∧
    run Engine.mkInit (corruptChecksum f1 c ++ encode f2) =
      ⟨FrameState.awaitStart, 1, [f2]⟩ := by
  unfold decode Engine.mkInit
  rw [run_append, run_corrupt 0 [] f1 c h1 hc, run_encode 1 [] f2 h2]
  exact ⟨rfl, rfl⟩

/-- Witness for C6: a two-byte frame with a corrupted checksum followed by
a valid one-byte frame. -/
theorem corrupted_checksum_resync_witness :
    decode (corruptChecksum ⟨[1, 2]⟩ 6 ++ encode ⟨[7]⟩) = [⟨[7]⟩] ∧
    run Engine.mkInit (corruptChecksum ⟨[1, 2]⟩ 6 ++ encode ⟨[7]⟩) =
      ⟨FrameState.awaitStart, 1, [⟨[7]⟩]⟩ :=
  corrupted_checksum_resync ⟨[1, 2]⟩ ⟨[7]⟩ 6 (by decide) (by decide)
    (by decide)

/-- Claim C7: for every send queue already at capacity, enqueue returns the
recoverable QueueFull result and leaves every frame already in the queue
unchanged. -/
theorem enqueue_at_capacity_rejected (q : SendQueue) (f : Frame)
    (h : q.frames.length = q.capacity) :
    enqueue q f = (q, EnqueueResult.rejectedFull) := by
  unfold enqueue
  rw [if_pos (le_of_eq h.symm)]

/-- Witness for C7: a one-slot queue holding one frame rejects a second. -/
theorem enqueue_at_capacity_rejected_witness :
    enqueue ⟨1, [⟨[]⟩]⟩ ⟨[2]⟩ =
      (⟨1, [⟨[]⟩]⟩, EnqueueResult.rejectedFull) :=
  enqueue_at_capacity_rejected ⟨1, [⟨[]⟩]⟩ ⟨[2]⟩ rfl

/-- Claim C8: for every frame of length L whose transport write accepts
only N < L bytes in one poll, exactly the remaining L - N bytes of that
frame are written on subsequent polls, with no byte duplicated and no byte
lost. -/
theorem pollWrite_remainder (F : List Byte) (N : Nat) (ns : List Nat)
    (hN : N < F.length) (hsum : F.length - N ≤ ns.sum) :
    (pollWrite ⟨F, 0⟩ N).2 = F.take N ∧
    (drain (pollWrite ⟨F, 0⟩ N).1 ns).2 = F.drop N ∧
    (pollWrite ⟨F, 0⟩ N).2 ++ (drain (pollWrite ⟨F, 0⟩ N).1 ns).2 = F := by
  have hp : pollWrite ⟨F, 0⟩ N = (⟨F, N⟩, F.take N) := by
    rw [pollWrite_eq]
    simp [min_eq_left hN.le]
  have hd : (drain (⟨F, N⟩ : Sender) ns).2 = F.drop N := by
    rw [drain_out]
    exact List.take_of_length_le (by rw [List.length_drop]; omega)
  rw [hp]
  exact ⟨rfl, hd, by rw [hd]; exact List.take_append_drop N F⟩

/-- Witness for C8: a four-byte frame, two bytes accepted on the first
poll, the rest drained across two later polls. -/
theorem pollWrite_remainder_witness :
    (pollWrite ⟨[10, 20, 30, 40], 0⟩ 2).2 = [10, 20, 30, 40].take 2 ∧
    (drain (pollWrite ⟨[10, 20, 30, 40], 0⟩ 2).1 [1, 5]).2 =
      [10, 20, 30, 40].drop 2 ∧
    (pollWrite ⟨[10, 20, 30, 40], 0⟩ 2).2 ++
      (drain (pollWrite ⟨[10, 20, 30, 40], 0⟩ 2).1 [1, 5]).2 =
        [10, 20, 30, 40] :=
  pollWrite_remainder [10, 20, 30, 40] 2 [1, 5] (by decide) (by decide)

end UsbComm
